import Mathlib

/-!
Shallow embedding of `src/main.c` (STM32 32x32 RGB matrix bit-banging driver)
and proofs about it.

Modelling conventions:
* GPIO writes are modelled either as returned line states (`setRow`, `setRGB`)
  or as events in an execution trace (`displayBuffer`, `showLine`).
* `uint32_t` / `int` values are modelled as `Nat` (all values involved are
  non-negative and no arithmetic in the modelled code overflows 32 bits).
* The framebuffer array is modelled as a total function `Nat → Nat` giving the
  contents at each index; the scan code only reads it.
* The gamma table computation `255*pow(i/256.0, 1.6)` (truncated to `uint8_t`)
  is modelled by its exact real value: since 1.6 = 8/5, the truncation
  `gammaTable[i] = n` is characterized by `n` being the greatest natural with
  `n^5 * 256^8 ≤ 255^5 * i^8` (for the values at hand the double-precision
  computation is several orders of magnitude away from any integer boundary,
  so the exact-real model agrees with the compiled code).
-/

/-- `#define MATRIX_WIDTH 32` -/
def MATRIX_WIDTH : Nat := 32

/-- `#define MATRIX_HEIGHT 32` -/
def MATRIX_HEIGHT : Nat := 32

/-- `#define MATRIX_SIZE MATRIX_WIDTH*MATRIX_HEIGHT` -/
def MATRIX_SIZE : Nat := MATRIX_WIDTH * MATRIX_HEIGHT

/-- `const int waits[] = {10,20,40,80,160,320,640,1280};` -/
def waits : List Nat := [10, 20, 40, 80, 160, 320, 640, 1280]

/-- `const int scan = MATRIX_HEIGHT/2;` -/
def scan : Nat := MATRIX_HEIGHT / 2

/-- One observable action of the driver on the panel control lines.
`setRowEv` records a call of `setRow` with its argument; `setRGBEv` records a
call of `setRGB` with its three arguments; `clkToggle` is one CLK_TOGGLE pulse;
`strobe` is one STROBE (latch) pulse; `dispOn`/`dispOff` are the DISP_ON /
DISP_OFF writes to the output-enable line; `wait n` is the busy loop of `n`
nops in `showLine`. -/
inductive Event where
  | setRowEv (row : Nat)
  | setRGBEv (rgb1 rgb2 plane : Nat)
  | clkToggle
  | strobe
  | dispOn
  | dispOff
  | wait (amount : Nat)
deriving DecidableEq, Repr

/-- The four row-address lines A, B, C, D (PB5, PB6, PB8, PB9). -/
structure RowLines where
  a : Bool
  b : Bool
  c : Bool
  d : Bool
deriving DecidableEq, Repr

/-- `void setRow(int row)`: drives line A when `row & 0b0001`, line B when
`row & 0b0010`, line C when `row & 0b0100`, line D when `row & 0b1000`
(a line is `true` exactly when the corresponding BSRRL write happens). -/
def setRow (row : Nat) : RowLines :=
  { a := (row &&& 1) != 0
    b := (row &&& 2) != 0
    c := (row &&& 4) != 0
    d := (row &&& 8) != 0 }

/-- Decoding the four row-address line states back to an integer
(line A is bit 0, ..., line D is bit 3). -/
def decodeRow (l : RowLines) : Nat :=
  (cond l.a 1 0) + (cond l.b 2 0) + (cond l.c 4 0) + (cond l.d 8 0)

/-- The six color data lines r1,g1,b1 (top half, PA5-PA7) and
r2,g2,b2 (bottom half, PA8-PA10). -/
structure ColorLines where
  r1 : Bool
  g1 : Bool
  b1 : Bool
  r2 : Bool
  g2 : Bool
  b2 : Bool
deriving DecidableEq, Repr

/-- `void setRGB(uint32_t rgb1, uint32_t rgb2, uint8_t plane)`: each line is
`true` exactly when the corresponding `rgb & (1 << shift)` test is non-zero. -/
def setRGB (rgb1 rgb2 plane : Nat) : ColorLines :=
  { r1 := (rgb1 &&& (1 <<< plane)) != 0
    g1 := (rgb1 &&& (1 <<< (plane + 8))) != 0
    b1 := (rgb1 &&& (1 <<< (plane + 16))) != 0
    r2 := (rgb2 &&& (1 <<< plane)) != 0
    g2 := (rgb2 &&& (1 <<< (plane + 8))) != 0
    b2 := (rgb2 &&& (1 <<< (plane + 16))) != 0 }

/-- `void showLine(int amount)`: STROBE, DISP_ON, `amount` nops, DISP_OFF. -/
def showLine (amount : Nat) : List Event :=
  [Event.strobe, Event.dispOn, Event.wait amount, Event.dispOff]

/-- `void displayBuffer(uint32_t buffer[])`, as the trace of events one call
emits.  Mirrors the source loops: for `s` in `[0, scan)`: `setRow(s)`, then for
each `plane` in `[0,8)`: for each `x` in `[0, MATRIX_WIDTH)`:
`setRGB(buffer[offset1+x], buffer[offset2+x], plane); CLK_TOGGLE;`, then
`showLine(waits[plane])`. -/
def displayBuffer (buffer : Nat → Nat) : List Event :=
  ((List.range scan).map (fun s =>
    let offset1 := MATRIX_WIDTH * s
    let offset2 := MATRIX_WIDTH * (s + scan)
    Event.setRowEv s ::
      (((List.range 8).map (fun plane =>
        (((List.range MATRIX_WIDTH).map (fun x =>
          [Event.setRGBEv (buffer (offset1 + x)) (buffer (offset2 + x)) plane,
           Event.clkToggle])).flatten)
          ++ showLine (waits.getD plane 0))).flatten))).flatten

/-- Modelled from the spec (§4.5 algorithm, §3 framebuffer indexing
`index = row * width + column`): the event sequence the Scan-Refresh Engine is
required to produce in one full-panel pass.  For each row-pair `s` in
`[0,16)`: invoke the Row Address Driver; for each bit-plane `p` in `[0,8)`:
drive all 32 columns in ascending order (top pixel at `(s,x)`, bottom pixel at
`(s+16,x)`), each followed by a shift-clock pulse; then pulse the latch,
enable the display for `weight[p]`, and disable it. -/
def specScanTrace (buffer : Nat → Nat) : List Event :=
  ((List.range 16).map (fun s =>
    Event.setRowEv s ::
      (((List.range 8).map (fun p =>
        (((List.range 32).map (fun x =>
          [Event.setRGBEv (buffer (s * 32 + x)) (buffer ((s + 16) * 32 + x)) p,
           Event.clkToggle])).flatten)
          ++ [Event.strobe, Event.dispOn, Event.wait (waits.getD p 0),
              Event.dispOff])).flatten))).flatten

/-- Recognizes a `setRGBEv` event. -/
def isSetRGBEv : Event → Bool
  | .setRGBEv _ _ _ => true
  | _ => false

/-- Recognizes a `setRowEv` event. -/
def isSetRowEv : Event → Bool
  | .setRowEv _ => true
  | _ => false

/-- Recognizes a `strobe` event. -/
def isStrobeEv : Event → Bool
  | .strobe => true
  | _ => false

/-- Recognizes a `dispOn` event. -/
def isDispOnEv : Event → Bool
  | .dispOn => true
  | _ => false

/-- The payload of a `wait` event. -/
def waitAmount : Event → Option Nat
  | .wait n => some n
  | _ => none

/-- Next state of the display-enable (OE) line after an event: `dispOn`
enables, `dispOff` disables, everything else leaves it unchanged. -/
def dispState : Bool → Event → Bool
  | _, .dispOn => true
  | _, .dispOff => false
  | en, _ => en

/-- An event is admissible in display-enable state `en` when it is not a row
address change or a column data change while the display is enabled. -/
def okAt : Bool → Event → Bool
  | en, .setRowEv _ => !en
  | en, .setRGBEv _ _ _ => !en
  | _, _ => true

/-- Checks a trace from display-enable state `en`: every `setRowEv` and
`setRGBEv` must happen with the display disabled. -/
def dispOffOk : Bool → List Event → Bool
  | _, [] => true
  | en, e :: rest => okAt en e && dispOffOk (dispState en e) rest

/-- Display-enable state after running a whole trace from state `en`. -/
def finalDisp (en : Bool) (l : List Event) : Bool :=
  l.foldl dispState en

/-- The gamma table entry `gammaTable[i] = 255*pow(i/256.0, 1.6)` truncated to
an integer, modelled by its exact real value: since `1.6 = 8/5` and the
truncation takes the greatest integer below, `gammaVal i` is the greatest
`n ≤ 255` with `n^5 * 256^8 ≤ 255^5 * i^8` (equivalent to
`n ≤ 255 * (i/256)^1.6`). -/
def gammaVal (i : Nat) : Nat :=
  Nat.findGreatest (fun n => n ^ 5 * 256 ^ 8 ≤ 255 ^ 5 * i ^ 8) 255

/-- `uint8_t gammaTable[256]` after the startup loop
`for (int i=0; i<256; i++) gammaTable[i] = 255*pow((i/256.0),1.6);`. -/
def gammaTable : List Nat := (List.range 256).map gammaVal

/-- The brightness ceiling of `randomizeFramebuffer` given the counter value
before the call: `counter++; int max = gammaTable[counter]; if (max == 0)
max = 1;` (the `uint8_t` counter increments with wraparound). -/
def ceilingOf (counter : Nat) : Nat :=
  let m := gammaTable.getD ((counter + 1) % 256) 0
  if m = 0 then 1 else m

/-- `void randomizeFramebuffer(uint32_t buffer[])`.  The global `uint8_t
counter` and the framebuffer are passed as explicit state; `rng k` is the
value of the `k`-th `rand()` call of this invocation (the C expression makes
three `rand()` calls per pixel; their association to the three channels is
taken left to right).  Returns the new counter and the new buffer contents. -/
def randomizeFramebuffer (counter : Nat) (buffer : Nat → Nat) (rng : Nat → Nat) :
    Nat × (Nat → Nat) :=
  ((counter + 1) % 256,
   fun i =>
     if i < MATRIX_SIZE then
       0 ||| ((gammaTable.getD (rng (3 * i) % ceilingOf counter) 0) <<< 0)
         ||| ((gammaTable.getD (rng (3 * i + 1) % ceilingOf counter) 0) <<< 8)
         ||| ((gammaTable.getD (rng (3 * i + 2) % ceilingOf counter) 0) <<< 16)
     else buffer i)

/-- Channel A of a packed pixel (bits 0-7). -/
def channelA (p : Nat) : Nat := p % 256

/-- Channel B of a packed pixel (bits 8-15). -/
def channelB (p : Nat) : Nat := p / 256 % 256

/-- Channel C of a packed pixel (bits 16-23). -/
def channelC (p : Nat) : Nat := p / 65536 % 256

/-- Number of non-zero 8-bit channels of a packed pixel. -/
def nonzeroChannels (p : Nat) : Nat :=
  (if channelA p ≠ 0 then 1 else 0) + (if channelB p ≠ 0 then 1 else 0)
    + (if channelC p ≠ 0 then 1 else 0)

/-- The framebuffer contents after `main`'s startup test pattern:
`memset(framebuffer, 0, ...)` followed by the four corner stores
(lines 101-107 of `main.c`). -/
def testFB : Nat → Nat := fun i =>
  if i = 0 then 0x00000050
  else if i = 31 then 0x00005000
  else if i = 992 then 0x00500000
  else if i = 1023 then 0x00505000
  else 0

/-- The framebuffer of the C2 end-to-end scenario: pixel (0,0) holds the
channel-A value 0x50, every other pixel is zero. -/
def scenarioFB : Nat → Nat := fun i => if i = 0 then 0x50 else 0

/-- Observable counters of `main`'s endless loop: the `frame` variable, the
number of `randomizeFramebuffer` calls and the number of heartbeat
transmissions so far. -/
structure MainLoopState where
  frame : Nat
  randomizeCalls : Nat
  heartbeats : Nat
deriving DecidableEq, Repr

/-- One iteration of `main`'s `while(1)` loop (lines 115-123):
`displayBuffer(framebuffer); if (++frame % 5 == 0) randomizeFramebuffer(...);
if (frame % 200 == 0) { ...transmit heartbeat... }`.  Only the counters are
tracked; the UART handshake delays the heartbeat but does not change how
often it happens. -/
def loopStep (st : MainLoopState) : MainLoopState :=
  let frame := st.frame + 1
  { frame := frame
    randomizeCalls := if frame % 5 = 0 then st.randomizeCalls + 1 else st.randomizeCalls
    heartbeats := if frame % 200 = 0 then st.heartbeats + 1 else st.heartbeats }

/-- State of `main`'s loop after `n` completed frames, starting from
`int frame = 0;`. -/
def runLoop : Nat → MainLoopState
  | 0 => { frame := 0, randomizeCalls := 0, heartbeats := 0 }
  | n + 1 => loopStep (runLoop n)

theorem dispOffOk_cons (en : Bool) (e : Event) (l : List Event) :
    dispOffOk en (e :: l) = (okAt en e && dispOffOk (dispState en e) l) := rfl

theorem finalDisp_cons (en : Bool) (e : Event) (l : List Event) :
    finalDisp en (e :: l) = finalDisp (dispState en e) l := rfl

theorem dispOffOk_append (en : Bool) (l1 l2 : List Event) :
    dispOffOk en (l1 ++ l2)
      = (dispOffOk en l1 && dispOffOk (finalDisp en l1) l2) := by
  induction l1 generalizing en with
  | nil => simp [dispOffOk, finalDisp]
  | cons e rest ih => simp [dispOffOk, finalDisp, ih, Bool.and_assoc]

theorem dispOffOk_flatten_of (L : List (List Event))
    (h : ∀ b ∈ L, dispOffOk false b = true ∧ finalDisp false b = false) :
    dispOffOk false L.flatten = true ∧ finalDisp false L.flatten = false := by
  induction L with
  | nil => exact ⟨rfl, rfl⟩
  | cons b L ih =>
    obtain ⟨hb, hfb⟩ := h b (by simp)
    obtain ⟨hL, hfL⟩ := ih (fun b hb => h b (by simp [hb]))
    constructor
    · rw [List.flatten_cons, dispOffOk_append, hb, hfb, hL]; rfl
    · rw [List.flatten_cons]
      show List.foldl dispState false (b ++ L.flatten) = false
      rw [List.foldl_append,
        show List.foldl dispState false b = false from hfb]
      exact hfL

theorem colBlock_ok (f g : Nat → Nat) (plane n : Nat) :
    dispOffOk false (((List.range n).map (fun x =>
        [Event.setRGBEv (f x) (g x) plane, Event.clkToggle])).flatten) = true ∧
    finalDisp false (((List.range n).map (fun x =>
        [Event.setRGBEv (f x) (g x) plane, Event.clkToggle])).flatten) = false := by
  apply dispOffOk_flatten_of
  intro b hb
  simp only [List.mem_map, List.mem_range] at hb
  obtain ⟨x, -, rfl⟩ := hb
  exact ⟨rfl, rfl⟩

theorem planeBlock_ok (f g : Nat → Nat) (plane n w : Nat) :
    dispOffOk false ((((List.range n).map (fun x =>
        [Event.setRGBEv (f x) (g x) plane, Event.clkToggle])).flatten)
        ++ showLine w) = true ∧
    finalDisp false ((((List.range n).map (fun x =>
        [Event.setRGBEv (f x) (g x) plane, Event.clkToggle])).flatten)
        ++ showLine w) = false := by
  obtain ⟨h1, h2⟩ := colBlock_ok f g plane n
  constructor
  · rw [dispOffOk_append, h1, h2]; rfl
  · show List.foldl dispState false _ = false
    rw [List.foldl_append, show List.foldl dispState false _ = false from h2]
    rfl

/-- C9: in every execution trace of the scan loop started with the display
disabled (as `main` does with DISP_OFF before the loop), every `setRow` and
`setRGB` invocation happens while the display-enable output is in the
disabled state, and the trace ends with the display disabled again, so the
invariant carries over to the next frame. -/
theorem C9_display_disabled_during_drive (buffer : Nat → Nat) :
    dispOffOk false (displayBuffer buffer) = true ∧
      finalDisp false (displayBuffer buffer) = false := by
  unfold displayBuffer
  apply dispOffOk_flatten_of
  intro b hb
  simp only [List.mem_map, List.mem_range] at hb
  obtain ⟨s, -, rfl⟩ := hb
  have hplanes : ∀ pb ∈ (List.range 8).map (fun plane =>
      (((List.range MATRIX_WIDTH).map (fun x =>
        [Event.setRGBEv (buffer (MATRIX_WIDTH * s + x))
          (buffer (MATRIX_WIDTH * (s + scan) + x)) plane,
         Event.clkToggle])).flatten) ++ showLine (waits.getD plane 0)),
      dispOffOk false pb = true ∧ finalDisp false pb = false := by
    intro pb hpb
    simp only [List.mem_map, List.mem_range] at hpb
    obtain ⟨plane, -, rfl⟩ := hpb
    exact planeBlock_ok _ _ plane MATRIX_WIDTH (waits.getD plane 0)
  constructor
  · rw [dispOffOk_cons, show okAt false (Event.setRowEv s) = true from rfl,
      show dispState false (Event.setRowEv s) = false from rfl, Bool.true_and]
    exact (dispOffOk_flatten_of _ hplanes).1
  · rw [finalDisp_cons, show dispState false (Event.setRowEv s) = false from rfl]
    exact (dispOffOk_flatten_of _ hplanes).2

/-- C1: one call of `displayBuffer` produces exactly the spec's scan
structure: 16 row-pair iterations, and within each, for each of the 8 planes
the 32 columns are driven by `setRGB` in ascending order, followed by exactly
one latch pulse and one display-enable hold interval; in total 16 `setRow`
invocations, 4096 `setRGB` invocations, 128 latch pulses and 128 hold
intervals whose durations are `waits[0..7]` in ascending plane order within
each row. -/
theorem C1_scan_pass_structure (buffer : Nat → Nat) :
    displayBuffer buffer = specScanTrace buffer ∧
    (displayBuffer buffer).countP isSetRowEv = 16 ∧
    (displayBuffer buffer).countP isSetRGBEv = 4096 ∧
    (displayBuffer buffer).countP isStrobeEv = 128 ∧
    (displayBuffer buffer).countP isDispOnEv = 128 ∧
    (displayBuffer buffer).filterMap waitAmount
      = ((List.range 16).map (fun _ => waits)).flatten := by
  refine ⟨?_, ?_, ?_, ?_, ?_, ?_⟩
  · simp only [displayBuffer, specScanTrace, showLine, scan, MATRIX_WIDTH,
      MATRIX_HEIGHT, Nat.mul_comm 32]
  · simp [displayBuffer, showLine, scan, MATRIX_WIDTH, MATRIX_HEIGHT,
      List.countP_flatten, List.countP_append, List.countP_cons, List.map_map,
      Function.comp_def, List.map_const', List.sum_replicate, isSetRowEv]
  · simp [displayBuffer, showLine, scan, MATRIX_WIDTH, MATRIX_HEIGHT,
      List.countP_flatten, List.countP_append, List.countP_cons, List.map_map,
      Function.comp_def, List.map_const', List.sum_replicate, isSetRGBEv]
  · simp [displayBuffer, showLine, scan, MATRIX_WIDTH, MATRIX_HEIGHT,
      List.countP_flatten, List.countP_append, List.countP_cons, List.map_map,
      Function.comp_def, List.map_const', List.sum_replicate, isStrobeEv]
  · simp [displayBuffer, showLine, scan, MATRIX_WIDTH, MATRIX_HEIGHT,
      List.countP_flatten, List.countP_append, List.countP_cons, List.map_map,
      Function.comp_def, List.map_const', List.sum_replicate, isDispOnEv]
  · simp [displayBuffer, showLine, scan, MATRIX_WIDTH, MATRIX_HEIGHT, waits,
      List.filterMap_flatten, List.filterMap_append, List.map_map,
      Function.comp_def, List.map_const', waitAmount]
    rfl

theorem and_one_shiftLeft_bne (x p : Nat) :
    ((x &&& (1 <<< p)) != 0) = x.testBit p := by
  rw [Nat.one_shiftLeft, Nat.and_two_pow]
  cases h : x.testBit p <;> simp [Nat.pow_eq_zero]

/-- C2: for all pixel values and planes 0..7, `setRGB` drives the six color
lines to exactly the boolean values of bits `plane`, `plane+8`, `plane+16`
of `rgb1` and of `rgb2`; and in the scenario with pixel (0,0) set to 0x50 and
all other pixels zero, at row-pair 0, column 0 the channel-A top-half line
(r1) is high exactly at bit-planes 6 and 4. -/
theorem C2_setRGB_bitplane_extraction :
    (∀ rgb1 rgb2 plane : Nat, plane < 8 →
      setRGB rgb1 rgb2 plane =
        { r1 := rgb1.testBit plane, g1 := rgb1.testBit (plane + 8),
          b1 := rgb1.testBit (plane + 16), r2 := rgb2.testBit plane,
          g2 := rgb2.testBit (plane + 8), b2 := rgb2.testBit (plane + 16) }) ∧
    (∀ plane : Nat, plane < 8 →
      ((setRGB (scenarioFB (32 * 0 + 0)) (scenarioFB (32 * (0 + scan) + 0)) plane).r1
        = true ↔ (plane = 6 ∨ plane = 4))) := by
  constructor
  · intro rgb1 rgb2 plane _
    simp only [setRGB, and_one_shiftLeft_bne]
  · decide

/-- Witness for C2 at `rgb1 = 5`, `rgb2 = 9`, `plane = 3`, and at `plane = 6`
for the scenario conjunct. -/
theorem C2_witness :
    (3 < 8 ∧ setRGB 5 9 3 =
      { r1 := (5 : Nat).testBit 3, g1 := (5 : Nat).testBit 11,
        b1 := (5 : Nat).testBit 19, r2 := (9 : Nat).testBit 3,
        g2 := (9 : Nat).testBit 11, b2 := (9 : Nat).testBit 19 }) ∧
    (6 < 8 ∧
      ((setRGB (scenarioFB (32 * 0 + 0)) (scenarioFB (32 * (0 + scan) + 0)) 6).r1
        = true ↔ (6 = 6 ∨ 6 = 4))) :=
  ⟨⟨by decide, C2_setRGB_bitplane_extraction.1 5 9 3 (by decide)⟩,
   ⟨by decide, C2_setRGB_bitplane_extraction.2 6 (by decide)⟩⟩

/-- C3: the wait table has exactly 8 entries, each entry is double the
previous one, and entry `i` equals `waits[0] * 2^i`, so the hold durations
stand in the exact ratio 1:2:4:8:16:32:64:128. -/
theorem C3_waits_table_doubling :
    waits.length = 8 ∧
    (∀ i, i < 7 → waits.getD (i + 1) 0 = 2 * waits.getD i 0) ∧
    (∀ i, i < 8 → waits.getD i 0 = waits.getD 0 0 * 2 ^ i) := by
  refine ⟨rfl, ?_, ?_⟩ <;> decide

/-- Witness for C3 at `i = 3` and `i = 5`. -/
theorem C3_witness :
    (3 < 7 ∧ waits.getD 4 0 = 2 * waits.getD 3 0) ∧
    (5 < 8 ∧ waits.getD 5 0 = waits.getD 0 0 * 2 ^ 5) :=
  ⟨⟨by decide, C3_waits_table_doubling.2.1 3 (by decide)⟩,
   ⟨by decide, C3_waits_table_doubling.2.2 5 (by decide)⟩⟩

/-- C5: for every row-pair index 0..15, `setRow` drives the four address
lines to exactly the four binary digits of the index, and decoding the four
line states recovers the index. -/
theorem C5_setRow_binary_address :
    ∀ row, row < 16 →
      setRow row = { a := row.testBit 0, b := row.testBit 1,
                     c := row.testBit 2, d := row.testBit 3 } ∧
      decodeRow (setRow row) = row := by decide

/-- Witness for C5 at `row = 11`. -/
theorem C5_witness :
    11 < 16 ∧
    (setRow 11 = { a := (11 : Nat).testBit 0, b := (11 : Nat).testBit 1,
                   c := (11 : Nat).testBit 2, d := (11 : Nat).testBit 3 } ∧
     decodeRow (setRow 11) = 11) :=
  ⟨by decide, C5_setRow_binary_address 11 (by decide)⟩

theorem runLoop_counts (n : Nat) :
    (runLoop n).frame = n ∧ (runLoop n).randomizeCalls = n / 5 ∧
      (runLoop n).heartbeats = n / 200 := by
  induction n with
  | zero => exact ⟨rfl, rfl, rfl⟩
  | succ n ih =>
    obtain ⟨h1, h2, h3⟩ := ih
    refine ⟨?_, ?_, ?_⟩ <;>
      simp only [runLoop, loopStep, h1, h2, h3]
    · split <;> omega
    · split <;> omega

/-- C7: after exactly 1000 completed frames of `main`'s loop starting from
frame counter 0, `randomizeFramebuffer` has been invoked exactly 200 times
(once per 5 frames) and the heartbeat has been transmitted exactly 5 times
(once per 200 frames). -/
theorem C7_frame_cadence_counts :
    (runLoop 1000).randomizeCalls = 200 ∧ (runLoop 1000).heartbeats = 5 := by
  obtain ⟨-, h2, h3⟩ := runLoop_counts 1000
  norm_num at h2 h3
  exact ⟨h2, h3⟩

/-- C8 counterexample: the corner pixel at index 1023 is set to 0x505000,
which does NOT have exactly one non-zero 8-bit channel (it has two). -/
theorem C8_corner_channels_counterexample :
    ¬ (nonzeroChannels (testFB 1023) = 1) := by decide

/-- C8 as amended: the startup test pattern sets exactly the four corner
pixels (0, 31, 992, 1023) to distinct non-zero values; the three at indices
0, 31 and 992 each have exactly one non-zero 8-bit channel, while the one at
1023 (0x505000) has exactly two non-zero channels (B and C, both 0x50); all
other pixels are zero. -/
theorem C8_test_pattern_corners :
    testFB 0 = 0x50 ∧ testFB 31 = 0x5000 ∧ testFB 992 = 0x500000 ∧
    testFB 1023 = 0x505000 ∧
    nonzeroChannels (testFB 0) = 1 ∧ nonzeroChannels (testFB 31) = 1 ∧
    nonzeroChannels (testFB 992) = 1 ∧ nonzeroChannels (testFB 1023) = 2 ∧
    channelB (testFB 1023) = 0x50 ∧ channelC (testFB 1023) = 0x50 ∧
    List.Pairwise (fun u v => u ≠ v) [testFB 0, testFB 31, testFB 992, testFB 1023] ∧
    (∀ i, i ≠ 0 → i ≠ 31 → i ≠ 992 → i ≠ 1023 → testFB i = 0) := by
  refine ⟨rfl, rfl, rfl, rfl, by decide, by decide, by decide, by decide,
    rfl, rfl, by decide, ?_⟩
  intro i h1 h2 h3 h4
  simp [testFB, h1, h2, h3, h4]

/-- Witness for C8's amended claim at the non-corner index 5. -/
theorem C8_witness :
    (5 : Nat) ≠ 0 ∧ (5 : Nat) ≠ 31 ∧ (5 : Nat) ≠ 992 ∧ (5 : Nat) ≠ 1023 ∧
      testFB 5 = 0 :=
  ⟨by decide, by decide, by decide, by decide,
   C8_test_pattern_corners.2.2.2.2.2.2.2.2.2.2.2 5 (by decide) (by decide)
     (by decide) (by decide)⟩

theorem gammaVal_mono {i j : Nat} (hij : i ≤ j) : gammaVal i ≤ gammaVal j := by
  unfold gammaVal
  exact Nat.findGreatest_mono_left
    (fun n hn => le_trans hn (Nat.mul_le_mul_left _ (Nat.pow_le_pow_left hij 8))) 255

theorem gammaVal_le_self {j : Nat} (hj : j < 256) : gammaVal j ≤ j := by
  by_contra h
  push_neg at h
  have hne : gammaVal j ≠ 0 := by omega
  have hP := Nat.findGreatest_of_ne_zero (rfl : gammaVal j = gammaVal j) hne
  have h1 : (j + 1) ^ 5 * 256 ^ 8 ≤ (gammaVal j) ^ 5 * 256 ^ 8 :=
    Nat.mul_le_mul_right _ (Nat.pow_le_pow_left (by omega) 5)
  have h2 : 255 ^ 5 * j ^ 8 ≤ 255 ^ 8 * j ^ 5 := by
    have hj8 : j ^ 8 = j ^ 3 * j ^ 5 := by ring
    rw [hj8]
    have h3 : j ^ 3 ≤ 255 ^ 3 := Nat.pow_le_pow_left (by omega) 3
    calc 255 ^ 5 * (j ^ 3 * j ^ 5) = (255 ^ 5 * j ^ 3) * j ^ 5 := by ring
      _ ≤ (255 ^ 5 * 255 ^ 3) * j ^ 5 :=
          Nat.mul_le_mul_right _ (Nat.mul_le_mul_left _ h3)
      _ = 255 ^ 8 * j ^ 5 := by ring
  have h4 : 255 ^ 8 * j ^ 5 < 256 ^ 8 * (j + 1) ^ 5 := by
    calc 255 ^ 8 * j ^ 5 ≤ 255 ^ 8 * (j + 1) ^ 5 :=
          Nat.mul_le_mul_left _ (Nat.pow_le_pow_left (by omega) 5)
      _ < 256 ^ 8 * (j + 1) ^ 5 := by
          apply Nat.mul_lt_mul_of_lt_of_le
          · exact Nat.pow_lt_pow_left (by omega) (by omega)
          · exact le_refl _
          · positivity
  have h5 : (j + 1) ^ 5 * 256 ^ 8 = 256 ^ 8 * (j + 1) ^ 5 := by ring
  omega

set_option maxRecDepth 4000 in
theorem gammaVal_zero : gammaVal 0 = 0 := by decide

set_option maxRecDepth 4000 in
theorem gammaVal_255 : gammaVal 255 = 253 := by decide

theorem gammaTable_getD {i : Nat} (h : i < 256) :
    gammaTable.getD i 0 = gammaVal i := by
  simp [gammaTable, List.getD, h]

theorem ceilingOf_pos (counter : Nat) : 1 ≤ ceilingOf counter := by
  simp only [ceilingOf]
  split <;> omega

theorem ceilingOf_le_255 (counter : Nat) : ceilingOf counter ≤ 255 := by
  simp only [ceilingOf]
  have hm : gammaTable.getD ((counter + 1) % 256) 0 ≤ 255 := by
    rw [gammaTable_getD (Nat.mod_lt _ (by norm_num))]
    exact Nat.findGreatest_le 255
  split <;> omega

theorem pack_channelA (a b c : Nat) (ha : a < 256) :
    (0 ||| (a <<< 0) ||| (b <<< 8) ||| (c <<< 16)) % 256 = a := by
  have h256 : (256 : Nat) = 2 ^ 8 := by norm_num
  apply Nat.eq_of_testBit_eq
  intro i
  rw [h256, Nat.testBit_mod_two_pow]
  rcases Nat.lt_or_ge i 8 with hi | hi
  · have h1 : ¬(8 ≤ i) := by omega
    have h2 : ¬(16 ≤ i) := by omega
    simp [Nat.testBit_or, Nat.testBit_shiftLeft, hi, h1, h2]
  · have h1 : ¬(i < 8) := by omega
    have h2 : a < 2 ^ i := by
      calc a < 256 := ha
        _ = 2 ^ 8 := h256
        _ ≤ 2 ^ i := Nat.pow_le_pow_right (by omega) hi
    simp [h1, Nat.testBit_lt_two_pow h2]

theorem pack_channelB (a b c : Nat) (ha : a < 256) (hb : b < 256) :
    (0 ||| (a <<< 0) ||| (b <<< 8) ||| (c <<< 16)) / 256 % 256 = b := by
  have h256 : (256 : Nat) = 2 ^ 8 := by norm_num
  apply Nat.eq_of_testBit_eq
  intro i
  rw [h256, Nat.testBit_mod_two_pow]
  rw [show ((0 ||| (a <<< 0) ||| (b <<< 8) ||| (c <<< 16)) / 2 ^ 8)
        = (0 ||| (a <<< 0) ||| (b <<< 8) ||| (c <<< 16)) >>> 8 from
      (Nat.shiftRight_eq_div_pow _ 8).symm]
  rw [Nat.testBit_shiftRight]
  rcases Nat.lt_or_ge i 8 with hi | hi
  · have h1 : (8 : Nat) ≤ 8 + i := by omega
    have h2 : ¬(16 ≤ 8 + i) := by omega
    have h3 : a < 2 ^ (8 + i) := by
      calc a < 256 := ha
        _ = 2 ^ 8 := h256
        _ ≤ 2 ^ (8 + i) := Nat.pow_le_pow_right (by omega) (by omega)
    simp [Nat.testBit_or, Nat.testBit_shiftLeft, hi, h1, h2,
      Nat.testBit_lt_two_pow h3]
  · have h1 : ¬(i < 8) := by omega
    have h2 : b < 2 ^ i := by
      calc b < 256 := hb
        _ = 2 ^ 8 := h256
        _ ≤ 2 ^ i := Nat.pow_le_pow_right (by omega) hi
    simp [h1, Nat.testBit_lt_two_pow h2]

theorem pack_channelC (a b c : Nat) (ha : a < 256) (hb : b < 256) (hc : c < 256) :
    (0 ||| (a <<< 0) ||| (b <<< 8) ||| (c <<< 16)) / 65536 % 256 = c := by
  have h256 : (256 : Nat) = 2 ^ 8 := by norm_num
  apply Nat.eq_of_testBit_eq
  intro i
  rw [h256, Nat.testBit_mod_two_pow]
  rw [show ((0 ||| (a <<< 0) ||| (b <<< 8) ||| (c <<< 16)) / 65536)
        = (0 ||| (a <<< 0) ||| (b <<< 8) ||| (c <<< 16)) >>> 16 from by
      rw [Nat.shiftRight_eq_div_pow]]
  rw [Nat.testBit_shiftRight]
  rcases Nat.lt_or_ge i 8 with hi | hi
  · have h1 : (8 : Nat) ≤ 16 + i := by omega
    have h1' : (16 : Nat) ≤ 16 + i := by omega
    have h3 : a < 2 ^ (16 + i) := by
      calc a < 256 := ha
        _ = 2 ^ 8 := h256
        _ ≤ 2 ^ (16 + i) := Nat.pow_le_pow_right (by omega) (by omega)
    have h4 : b < 2 ^ (16 + i - 8) := by
      calc b < 256 := hb
        _ = 2 ^ 8 := h256
        _ ≤ 2 ^ (16 + i - 8) := Nat.pow_le_pow_right (by omega) (by omega)
    simp [Nat.testBit_or, Nat.testBit_shiftLeft, hi, h1, h1',
      Nat.testBit_lt_two_pow h3, Nat.testBit_lt_two_pow h4]
  · have h1 : ¬(i < 8) := by omega
    have h2 : c < 2 ^ i := by
      calc c < 256 := hc
        _ = 2 ^ 8 := h256
        _ ≤ 2 ^ i := Nat.pow_le_pow_right (by omega) hi
    simp [h1, Nat.testBit_lt_two_pow h2]

/-- C4 counterexample: the gamma table does not map 255 to 255; the code
computes `255*pow(i/256.0, 1.6)` (divisor 256, not 255), so entry 255 is 253. -/
theorem C4_gamma_endpoint_counterexample : gammaTable.getD 255 0 ≠ 255 := by
  rw [gammaTable_getD (by norm_num), gammaVal_255]
  norm_num

/-- C4 as amended: the gamma table built at startup is monotonically
non-decreasing over indices 0..255 and maps 0 to 0, but maps 255 to 253
(not 255). -/
theorem C4_gamma_monotone_endpoints :
    (∀ i j, i ≤ j → j ≤ 255 → gammaTable.getD i 0 ≤ gammaTable.getD j 0) ∧
    gammaTable.getD 0 0 = 0 ∧ gammaTable.getD 255 0 = 253 := by
  refine ⟨?_, ?_, ?_⟩
  · intro i j hij hj
    rw [gammaTable_getD (by omega), gammaTable_getD (by omega)]
    exact gammaVal_mono hij
  · rw [gammaTable_getD (by norm_num)]
    exact gammaVal_zero
  · rw [gammaTable_getD (by norm_num)]
    exact gammaVal_255

/-- Witness for C4's amended claim at `i = 3`, `j = 200`. -/
theorem C4_witness :
    (3 ≤ 200 ∧ (200 : Nat) ≤ 255 ∧ gammaTable.getD 3 0 ≤ gammaTable.getD 200 0) :=
  ⟨by norm_num, by norm_num,
   C4_gamma_monotone_endpoints.1 3 200 (by norm_num) (by norm_num)⟩

/-- C6: `randomizeFramebuffer` advances the 8-bit counter with wraparound,
derives a ceiling from the gamma table at the new counter value clamped to at
least 1, and every one of the three channel values it writes into every pixel
is at most that ceiling. -/
theorem C6_randomize_channel_ceiling (counter : Nat) (buffer rng : Nat → Nat) :
    (randomizeFramebuffer counter buffer rng).1 = (counter + 1) % 256 ∧
    1 ≤ ceilingOf counter ∧
    ∀ i, i < MATRIX_SIZE →
      channelA ((randomizeFramebuffer counter buffer rng).2 i) ≤ ceilingOf counter ∧
      channelB ((randomizeFramebuffer counter buffer rng).2 i) ≤ ceilingOf counter ∧
      channelC ((randomizeFramebuffer counter buffer rng).2 i) ≤ ceilingOf counter := by
  refine ⟨rfl, ceilingOf_pos counter, ?_⟩
  intro i hi
  have hpos := ceilingOf_pos counter
  have hle := ceilingOf_le_255 counter
  have hj : ∀ k, rng k % ceilingOf counter < ceilingOf counter :=
    fun k => Nat.mod_lt _ (by omega)
  have hg : ∀ k, gammaTable.getD (rng k % ceilingOf counter) 0
      ≤ rng k % ceilingOf counter := fun k => by
    rw [gammaTable_getD (by have := hj k; omega)]
    exact gammaVal_le_self (by have := hj k; omega)
  have hga : ∀ k, gammaTable.getD (rng k % ceilingOf counter) 0 < 256 :=
    fun k => by have := hg k; have := hj k; omega
  simp only [randomizeFramebuffer, if_pos hi, channelA, channelB, channelC]
  refine ⟨?_, ?_, ?_⟩
  · rw [pack_channelA _ _ _ (hga _)]
    have := hg (3 * i); have := hj (3 * i); omega
  · rw [pack_channelB _ _ _ (hga _) (hga _)]
    have := hg (3 * i + 1); have := hj (3 * i + 1); omega
  · rw [pack_channelC _ _ _ (hga _) (hga _) (hga _)]
    have := hg (3 * i + 2); have := hj (3 * i + 2); omega

/-- Witness for C6 at counter 0, zero buffer and zero rand stream, pixel 0. -/
theorem C6_witness :
    (randomizeFramebuffer 0 (fun _ => 0) (fun _ => 0)).1 = (0 + 1) % 256 ∧
    1 ≤ ceilingOf 0 ∧
    (0 < MATRIX_SIZE ∧
      channelA ((randomizeFramebuffer 0 (fun _ => 0) (fun _ => 0)).2 0) ≤ ceilingOf 0) :=
  ⟨(C6_randomize_channel_ceiling 0 (fun _ => 0) (fun _ => 0)).1,
   (C6_randomize_channel_ceiling 0 (fun _ => 0) (fun _ => 0)).2.1,
   ⟨by decide,
    ((C6_randomize_channel_ceiling 0 (fun _ => 0) (fun _ => 0)).2.2 0 (by decide)).1⟩⟩

/-- C10: every array access in the core is in bounds.  `displayBuffer` reads
the framebuffer only at indices below `MATRIX_SIZE` (so its trace only depends
on the buffer contents at indices 0..1023), and `randomizeFramebuffer` indexes
the 256-entry gamma table only at the wrapped counter (< 256) and at
`rand() % max` with `1 ≤ max ≤ 255`, so every gamma-table index is below 256
and the modulo divisor is never zero. -/
theorem C10_memory_safety :
    (∀ buffer buffer' : Nat → Nat,
        (∀ i, i < MATRIX_SIZE → buffer i = buffer' i) →
        displayBuffer buffer = displayBuffer buffer') ∧
    (∀ counter : Nat,
        1 ≤ ceilingOf counter ∧ ceilingOf counter ≤ 255 ∧
        (counter + 1) % 256 < 256 ∧
        (∀ r : Nat, r % ceilingOf counter < 256)) := by
  constructor
  · intro buffer buffer' h
    simp only [displayBuffer]
    apply congrArg List.flatten
    apply List.map_congr_left
    intro s hs
    simp only [List.mem_range] at hs
    congr 1
    apply congrArg List.flatten
    apply List.map_congr_left
    intro plane hp
    congr 1
    apply congrArg List.flatten
    apply List.map_congr_left
    intro x hx
    simp only [List.mem_range] at hx
    rw [h (MATRIX_WIDTH * s + x)
         (by simp only [MATRIX_WIDTH, MATRIX_SIZE, MATRIX_HEIGHT, scan] at *; omega),
       h (MATRIX_WIDTH * (s + scan) + x)
         (by simp only [MATRIX_WIDTH, MATRIX_SIZE, MATRIX_HEIGHT, scan] at *; omega)]
  · intro counter
    have hpos := ceilingOf_pos counter
    have hle := ceilingOf_le_255 counter
    refine ⟨hpos, hle, Nat.mod_lt _ (by norm_num), fun r => ?_⟩
    have := Nat.mod_lt r (show 0 < ceilingOf counter by omega)
    omega

/-- Witness for C10 with two equal zero buffers and counter 7. -/
theorem C10_witness :
    displayBuffer (fun _ => 0) = displayBuffer (fun _ => 0) ∧
    1 ≤ ceilingOf 7 ∧ (5 : Nat) % ceilingOf 7 < 256 :=
  ⟨C10_memory_safety.1 (fun _ => 0) (fun _ => 0) (fun _ _ => rfl),
   (C10_memory_safety.2 7).1,
   (C10_memory_safety.2 7).2.2.2 5⟩
